import Mathlib

/-!
Verification of the experiment-scheduler repository.

Shallow embedding of the scheduler subsystem:
- `src/experiment/api/work.py` (JobStatus, Job, Experiment),
- `src/experiment/api/host.py` (Host RPC client, Result, fail-gracefully wrappers),
- `src/experiment/api/worker.py` (worker RPC service and its HTTP file route),
- `src/experiment/api/scheduler/scheduler.py` (scheduling loop, dashboard routes).

RPC connections, the OS and the filesystem are modelled as explicit oracles
(`ConnBehavior`, `FileSystem`); every operation that performs network calls
returns the list of `RpcCall`s it made, so that statements about network I/O
are statements about that trace.  Python exceptions are modelled with
`Except String`; dictionaries are association lists with first-match lookup.
-/

namespace ExperimentSpec

/-- `JobStatus` from `src/experiment/api/work.py` (lines 8-26).  The source
enumeration has exactly these nine values; it defines no NONE value. -/
inductive JobStatus where
  | pending
  | running
  | sleep
  | waiting
  | stopped
  | zombie
  | exited
  | killed
  | failed
deriving DecidableEq, Repr

/-- `JobStatus.running` from work.py (renamed: `running` is a constructor here):
true exactly for RUNNING, SLEEP, WAITING, STOPPED, ZOMBIE. -/
def JobStatus.isRunning : JobStatus → Bool
  | .running => true
  | .sleep => true
  | .waiting => true
  | .stopped => true
  | .zombie => true
  | _ => false

/-- `JobStatus.from_string` from work.py; the Python code raises RuntimeError on
an unknown string, modelled by `none`. -/
def JobStatus.from_string : String → Option JobStatus
  | "pending" => some .pending
  | "running" => some .running
  | "sleep" => some .sleep
  | "waiting" => some .waiting
  | "stopped" => some .stopped
  | "zombie" => some .zombie
  | "exited" => some .exited
  | "killed" => some .killed
  | "failed" => some .failed
  | _ => none

/-- A job, from `Job.__init__` in work.py (lines 82-109) together with the
fields the scheduler and host mutate on it.  Fields `experiment` holds the
experiment name (work.py stores the Experiment object and host.py keys its
dictionaries by it; we use the name as the key).  The fields `host_name`,
`links` and `schedulable` are Modelled from the spec: the full Job class used
by the scheduler (with `set_links`, the NONE/schedulable notion, `clear`,
`shorthand_command`) is not under src/; the spec gives `host_name` initial
"TBD", `links` initially empty, and a job eligible for placement until it is
launched. -/
structure Job where
  experiment : String
  command : String
  outdir : String
  stdout : String
  stderr : String
  pid : Int
  status : JobStatus
  demand : Int
  id : String
  aux_file_paths : List (String × String)
  host_name : String
  links : List (String × String)
  schedulable : Bool
deriving DecidableEq, Repr

/-- `Job.__init__` from work.py: stdout and stderr are derived from outdir,
pid starts at -1 and the status starts at PENDING (work.py line 102 assigns
`JobStatus.PENDING`, not a NONE value). -/
def Job.mk_init (experiment command outdir : String) (demand : Int) (id : String)
    (aux_file_paths : List (String × String)) : Job :=
  { experiment := experiment
    command := command
    outdir := outdir
    stdout := outdir ++ "/stdout"
    stderr := outdir ++ "/stderr"
    pid := -1
    status := JobStatus.pending
    demand := demand
    id := id
    aux_file_paths := aux_file_paths
    host_name := "TBD"
    links := []
    schedulable := true }

/-- `Job.set_status` from work.py. -/
def Job.set_status (j : Job) (s : JobStatus) : Job := { j with status := s }

/-- `Job.set_pid` from work.py. -/
def Job.set_pid (j : Job) (p : Int) : Job := { j with pid := p }

/-- `Job.set_links` as called by `Host._launch_job` (host.py lines 152-161);
the method itself is not under src/, Modelled from the spec: records the host
name and the dashboard links, and the job stops being schedulable once it has
been handed to a host (its status leaves the schedulable state). -/
def Job.set_links (j : Job) (host_name : String) (links : List (String × String)) : Job :=
  { j with host_name := host_name, links := links, schedulable := false }

/-- `Job.file_io` from work.py: stdout and stderr entries followed by the
auxiliary file entries. -/
def Job.file_entries (j : Job) : List (String × String) :=
  [("stdout", j.stdout), ("stderr", j.stderr)] ++ j.aux_file_paths

/-- `Experiment` from work.py (name, outdir, ordered job list). -/
structure Experiment where
  name : String
  outdir : String
  jobs : List Job
deriving DecidableEq, Repr

/-- The status set named by the spec sentence for C8, restricted to the
constructors that exist in the code; the code defines no NONE constructor at
all, so the spec's NONE cannot even be represented. -/
def specClaimedStatuses : List JobStatus :=
  [JobStatus.pending, JobStatus.running, JobStatus.exited,
   JobStatus.killed, JobStatus.failed]

/-! ### Host RPC client, from `src/experiment/api/host.py` -/

/-- One network call made on the RPC connection of a host.  Operations return
the list of calls they performed, so "performs no network I/O" is "the trace
is empty". -/
inductive RpcCall where
  | connectRpc
  | closeRpc
  | launchRpc (command : String) (outdir : String)
  | killRpc (pid : Int) (signal : Int)
  | statusRpc (pid : Int)
deriving DecidableEq, Repr

/-- Behaviour of the remote worker as seen through one connection: each RPC
either returns normally (`Except.ok`) or raises (`Except.error msg`). -/
structure ConnBehavior where
  launch_result : Except String Int
  kill_result : Int → Int → Except String Bool
  status_result : Int → Except String String

/-- `Result` / `Success` / `Failure` from host.py: every RPC-touching host
operation returns one of these instead of raising. -/
inductive RpcResult (α : Type) where
  | success (value : α)
  | failure (site : String) (msg : String)
deriving DecidableEq, Repr

/-- `Result.ok` from host.py. -/
def RpcResult.ok : RpcResult α → Bool
  | .success _ => true
  | .failure _ _ => false

/-- `Host` state from host.py: `running_jobs` and `finished_jobs` are Python
dictionaries keyed by experiment name, modelled as association lists in
insertion order; `connected` models `self._connection is not None`; `failed`
is the sticky flag from the `Human` base class. -/
structure Host where
  name : String
  domain : String
  max_capacity : Int
  file_domain : String
  connected : Bool
  failed : Bool
  running_jobs : List (String × List Job)
  finished_jobs : List (String × List Job)
deriving DecidableEq, Repr

/-- `Host.__init__` from host.py. -/
def Host.mk_init (name domain : String) (max_capacity : Int)
    (file_server_port : String) : Host :=
  { name := name
    domain := domain
    max_capacity := max_capacity
    file_domain := domain ++ ":" ++ file_server_port
    connected := false
    failed := false
    running_jobs := []
    finished_jobs := [] }

/-- Python `list.remove(job)` compares by object identity; job objects are
identified by their unique `id` field in this value model.  Removes the first
element with the given id. -/
def eraseById : List Job → String → List Job
  | [], _ => []
  | x :: xs, i => if x.id == i then xs else x :: eraseById xs i

/-- First-match lookup in a Python-dict-as-association-list. -/
def dictFind : List (String × List Job) → String → Option (List Job)
  | [], _ => none
  | (k2, v2) :: rest, k => if k2 == k then some v2 else dictFind rest k

/-- Python dict assignment: replace the first entry with this key, or append a
new entry (insertion order) when the key is absent. -/
def dictSet : List (String × List Job) → String → List Job → List (String × List Job)
  | [], k, v => [(k, v)]
  | (k2, v2) :: rest, k, v =>
    if k2 == k then (k, v) :: rest else (k2, v2) :: dictSet rest k v

/-- The summed demand of a running-jobs dictionary. -/
def sumDict (d : List (String × List Job)) : Int :=
  (d.map (fun p => (p.2.map Job.demand).sum)).sum

/-- Sum of `demand(j)` over all jobs in a host's `running_jobs`, the
subtrahend of `Host.capacity` (host.py lines 101-108). -/
def Host.sum_running_demand (h : Host) : Int := sumDict h.running_jobs

/-- `Host.capacity` from host.py: `max_capacity` minus the summed demand of
the running jobs. -/
def Host.capacity (h : Host) : Int := h.max_capacity - h.sum_running_demand

/-- `healthy` from host.py: yields exactly the hosts whose `failed` flag is
not set. -/
def healthy (hosts : List Host) : List Host := hosts.filter (fun h => !h.failed)

/-- The job as `Host._launch_job` (host.py lines 137-169) leaves it after a
normal launch RPC reply: pid stored (whatever its value, -1 included), links
recorded from `file_io`, status set to PENDING.  (`urllib.parse.quote` is
modelled as the identity; no claim depends on URL escaping.) -/
def launched_job (h : Host) (j : Job) (pid_value : Int) : Job :=
  ((j.set_pid pid_value).set_links h.name
    (j.file_entries.map (fun le =>
      (le.1, "/files?host=" ++ h.file_domain ++ "&path=" ++ le.2)))).set_status
    JobStatus.pending

/-- `Host._launch_job` from host.py (lines 137-169), as a pure step: raises
if no connection is established; otherwise makes the launch RPC, and on a
normal reply mutates the job (`launched_job`), creates the two dictionary
entries for the experiment if missing and appends the job to `running_jobs`.
Returns the possibly-raised exception, the mutated host, the mutated job and
the RPC trace. -/
def Host.launch_job_impl (h : Host) (conn : ConnBehavior) (j : Job) :
    Except String Int × Host × Job × List RpcCall :=
  if h.connected = false then
    (Except.error "Connection not established", h, j, [])
  else
    match conn.launch_result with
    | .error e => (Except.error e, h, j, [RpcCall.launchRpc j.command j.outdir])
    | .ok pid_value =>
      match dictFind h.running_jobs j.experiment with
      | some cur =>
        (Except.ok (launched_job h j pid_value).pid,
          { h with running_jobs :=
              dictSet h.running_jobs j.experiment (cur ++ [launched_job h j pid_value]) },
          launched_job h j pid_value, [RpcCall.launchRpc j.command j.outdir])
      | none =>
        (Except.ok (launched_job h j pid_value).pid,
          { h with
            running_jobs := h.running_jobs ++ [(j.experiment, [launched_job h j pid_value])]
            finished_jobs := h.finished_jobs ++ [(j.experiment, [])] },
          launched_job h j pid_value, [RpcCall.launchRpc j.command j.outdir])

/-- `Host.launch_job` from host.py: `_launch_job` under `_fail_gracefully` —
an exception marks the host failed and yields a Failure. -/
def Host.launch_job (h : Host) (conn : ConnBehavior) (j : Job) :
    RpcResult Int × Host × Job × List RpcCall :=
  match h.launch_job_impl conn j with
  | (.ok v, h2, j2, tr) => (RpcResult.success v, h2, j2, tr)
  | (.error e, h2, j2, tr) =>
    (RpcResult.failure (h.name ++ "::_launch_job") e, { h2 with failed := true }, j2, tr)

/-- `Host._kill_job` from host.py (lines 174-181): make the kill RPC; on a
normal `true` reply mark the job KILLED, append it to `finished_jobs` and
remove it from `running_jobs`; on a normal `false` reply raise RuntimeError;
a missing dictionary entry raises KeyError.  The removal erases the first
list element identical to the (already mutated) job. -/
def Host.kill_job_impl (h : Host) (conn : ConnBehavior) (j : Job) (signal : Int) :
    Except String Bool × Host × Job × List RpcCall :=
  if h.connected = false then
    (Except.error "AttributeError: NoneType object has no attribute root", h, j, [])
  else
    match conn.kill_result j.pid signal with
    | .error e => (Except.error e, h, j, [RpcCall.killRpc j.pid signal])
    | .ok false =>
      (Except.error (h.name ++ " failed to kill job " ++ j.id), h, j,
        [RpcCall.killRpc j.pid signal])
    | .ok true =>
      match dictFind h.finished_jobs j.experiment with
      | none =>
        (Except.error "KeyError", h, j.set_status JobStatus.killed,
          [RpcCall.killRpc j.pid signal])
      | some fin =>
        match dictFind h.running_jobs j.experiment with
        | none =>
          (Except.error "KeyError",
            { h with finished_jobs :=
                dictSet h.finished_jobs j.experiment (fin ++ [j.set_status JobStatus.killed]) },
            j.set_status JobStatus.killed, [RpcCall.killRpc j.pid signal])
        | some run =>
          if run.any (fun x => x.id == j.id) then
            (Except.ok true,
              { h with
                finished_jobs :=
                  dictSet h.finished_jobs j.experiment (fin ++ [j.set_status JobStatus.killed])
                running_jobs := dictSet h.running_jobs j.experiment (eraseById run j.id) },
              j.set_status JobStatus.killed, [RpcCall.killRpc j.pid signal])
          else
            (Except.error "ValueError: list.remove, job not in list",
              { h with finished_jobs :=
                  dictSet h.finished_jobs j.experiment (fin ++ [j.set_status JobStatus.killed]) },
              j.set_status JobStatus.killed, [RpcCall.killRpc j.pid signal])

/-- `Host.kill_job` from host.py: `_kill_job` under `_fail_gracefully`. -/
def Host.kill_job (h : Host) (conn : ConnBehavior) (j : Job) (signal : Int) :
    RpcResult Bool × Host × Job × List RpcCall :=
  match h.kill_job_impl conn j signal with
  | (.ok v, h2, j2, tr) => (RpcResult.success v, h2, j2, tr)
  | (.error e, h2, j2, tr) =>
    (RpcResult.failure (h.name ++ "::_kill_job") e, { h2 with failed := true }, j2, tr)

/-- The body of the `for job in jobs` loop of `Host._update` (host.py lines
186-193), with Python's list-iterator semantics made explicit: the iterator
advances an index over the very list that `running_jobs[experiment].remove`
shrinks, so removing the current element shifts the next one under the cursor
and it is skipped.  `statusOf` performs the `job_status` RPC (empty trace and
AttributeError when no connection is established).  The worker returns a
status string; `Job.set_status` is modelled together with the string
conversion (`JobStatus.from_string`, raising on unknown strings), and the
`Job.running` test (absent from src/) as `JobStatus.isRunning`.  `fin` is the
`finished_jobs` entry for this experiment (`none` = missing key, so that an
append raises KeyError).  The first argument is iteration fuel: the Python
loop runs at most `jobs.length` iterations (the index grows by one each
round and the list never grows), and callers pass exactly that. -/
def update_scan (statusOf : Int → Except String String × List RpcCall) :
    Nat → List Job → Nat → Option (List Job) →
    Except String Unit × List Job × Option (List Job) × List RpcCall
  | 0, jobs, _, fin => (Except.ok (), jobs, fin, [])
  | fuel + 1, jobs, idx, fin =>
    match jobs[idx]? with
    | none => (Except.ok (), jobs, fin, [])
    | some j =>
      let step := statusOf j.pid
      match step.1 with
      | .error e => (Except.error e, jobs, fin, step.2)
      | .ok s =>
        match JobStatus.from_string s with
        | none => (Except.error ("Unknown job status " ++ s), jobs, fin, step.2)
        | some st =>
          let j1 := j.set_status st
          if j1.status.isRunning then
            let rec1 := update_scan statusOf fuel (jobs.set idx j1) (idx + 1) fin
            (rec1.1, rec1.2.1, rec1.2.2.1, step.2 ++ rec1.2.2.2)
          else
            match fin with
            | none => (Except.error "KeyError", jobs.set idx j1, fin, step.2)
            | some fl =>
              let rec1 := update_scan statusOf fuel (jobs.eraseIdx idx) (idx + 1) (some (fl ++ [j1]))
              (rec1.1, rec1.2.1, rec1.2.2.1, step.2 ++ rec1.2.2.2)

/-- Write the scanned `finished_jobs` entry back into the dictionary (the
Python appends mutate the dictionary's list in place; `none` means the key was
absent and nothing was written). -/
def writeBackFin (fin : List (String × List Job)) (k : String) :
    Option (List Job) → List (String × List Job)
  | some v => dictSet fin k v
  | none => fin

/-- The `for experiment, jobs in self._running_jobs.items()` loop of
`Host._update`: entries are scanned in order; an exception aborts the loop
with all previous mutations kept. -/
def update_entries (statusOf : Int → Except String String × List RpcCall) :
    List (String × List Job) → List (String × List Job) →
    Except String Unit × List (String × List Job) × List (String × List Job) × List RpcCall
  | [], fin => (Except.ok (), [], fin, [])
  | (k, jobs) :: rest, fin =>
    match update_scan statusOf jobs.length jobs 0 (dictFind fin k) with
    | (.error e, jobs2, finE, tr) =>
      (Except.error e, (k, jobs2) :: rest, writeBackFin fin k finE, tr)
    | (.ok _, jobs2, finE, tr) =>
      let fin2 := writeBackFin fin k finE
      let rec1 := update_entries statusOf rest fin2
      (rec1.1, (k, jobs2) :: rec1.2.1, rec1.2.2.1, tr ++ rec1.2.2.2)

/-- The `job_status` RPC as `Host._update` reaches it: an AttributeError (and
no network traffic) when no connection is established, the connection's
answer and one traced call otherwise. -/
def Host.status_oracle (h : Host) (conn : ConnBehavior) (pid : Int) :
    Except String String × List RpcCall :=
  if h.connected then (conn.status_result pid, [RpcCall.statusRpc pid])
  else
    ((Except.error "AttributeError: NoneType object has no attribute root" :
      Except String String), ([] : List RpcCall))

/-- `Host._update` from host.py (lines 186-196). -/
def Host.update_impl (h : Host) (conn : ConnBehavior) :
    Except String Bool × Host × List RpcCall :=
  match update_entries (h.status_oracle conn) h.running_jobs h.finished_jobs with
  | (.error e, run2, fin2, tr) =>
    (Except.error e, { h with running_jobs := run2, finished_jobs := fin2 }, tr)
  | (.ok _, run2, fin2, tr) =>
    (Except.ok true, { h with running_jobs := run2, finished_jobs := fin2 }, tr)

/-- `Host.update` from host.py: `_update` under `_fail_gracefully`. -/
def Host.update (h : Host) (conn : ConnBehavior) :
    RpcResult Bool × Host × List RpcCall :=
  match h.update_impl conn with
  | (.ok v, h2, tr) => (RpcResult.success v, h2, tr)
  | (.error e, h2, tr) =>
    (RpcResult.failure (h.name ++ "::_update") e, { h2 with failed := true }, tr)

/-- `Host._connect` from host.py: raises when already connected; otherwise an
`rpyc.connect` attempt (network I/O) that the `connect_ok` oracle resolves. -/
def Host.connect_impl (h : Host) (connect_ok : Bool) :
    Except String Bool × Host × List RpcCall :=
  if h.connected then (Except.error "Already connected", h, [])
  else if connect_ok then (Except.ok true, { h with connected := true }, [RpcCall.connectRpc])
  else (Except.error "ConnectionRefusedError", h, [RpcCall.connectRpc])

/-- `Host.connect` from host.py. -/
def Host.connect (h : Host) (connect_ok : Bool) :
    RpcResult Bool × Host × List RpcCall :=
  match h.connect_impl connect_ok with
  | (.ok v, h2, tr) => (RpcResult.success v, h2, tr)
  | (.error e, h2, tr) =>
    (RpcResult.failure (h.name ++ "::_connect") e, { h2 with failed := true }, tr)

/-- `Host._disconnect` from host.py: raises when not connected; otherwise
closes the connection. -/
def Host.disconnect_impl (h : Host) : Except String Bool × Host × List RpcCall :=
  if h.connected then (Except.ok true, { h with connected := false }, [RpcCall.closeRpc])
  else (Except.error "Not connected", h, [])

/-- `Host.disconnect` from host.py. -/
def Host.disconnect (h : Host) : RpcResult Bool × Host × List RpcCall :=
  match h.disconnect_impl with
  | (.ok v, h2, tr) => (RpcResult.success v, h2, tr)
  | (.error e, h2, tr) =>
    (RpcResult.failure (h.name ++ "::_disconnect") e, { h2 with failed := true }, tr)

/-- The `for job in self._running_jobs[experiment.name()]` loop of
`Host._kill_experiment` (host.py lines 198-205): each iteration calls
`_kill_job(job, 9)`, which on success removes the current element from the
list being iterated (again skipping the next element).  `fuel` bounds the
iteration count by the list's initial length (the list never grows, so the
Python loop makes at most that many iterations). -/
def kill_experiment_scan (conn : ConnBehavior) (h : Host) (k : String) (idx : Nat) :
    Nat → Except String Unit × Host × List RpcCall
  | 0 => (Except.ok (), h, [])
  | fuel + 1 =>
    match ((dictFind h.running_jobs k).getD [])[idx]? with
    | none => (Except.ok (), h, [])
    | some j =>
      match h.kill_job_impl conn j 9 with
      | (.error e, h2, _, tr) => (Except.error e, h2, tr)
      | (.ok _, h2, _, tr) =>
        let rec1 := kill_experiment_scan conn h2 k (idx + 1) fuel
        (rec1.1, rec1.2.1, tr ++ rec1.2.2)

/-- `Host._kill_experiment` from host.py (lines 198-205).  The source line
`if experiment.name() not in self._running_jobs: True` is a no-op (the return
is missing), so a missing key raises KeyError at the subscript. -/
def Host.kill_experiment_impl (h : Host) (conn : ConnBehavior) (ename : String) :
    Except String Bool × Host × List RpcCall :=
  match dictFind h.running_jobs ename with
  | none => (Except.error "KeyError", h, [])
  | some l =>
    match kill_experiment_scan conn h ename 0 l.length with
    | (.error e, h2, tr) => (Except.error e, h2, tr)
    | (.ok _, h2, tr) => (Except.ok true, h2, tr)

/-- `Host.kill_experiment` from host.py. -/
def Host.kill_experiment (h : Host) (conn : ConnBehavior) (ename : String) :
    RpcResult Bool × Host × List RpcCall :=
  match h.kill_experiment_impl conn ename with
  | (.ok v, h2, tr) => (RpcResult.success v, h2, tr)
  | (.error e, h2, tr) =>
    (RpcResult.failure (h.name ++ "::_kill_experiment") e, { h2 with failed := true }, tr)

/-- A capability call on a host, with the oracles it consumes. -/
inductive HostOp where
  | connectOp (connect_ok : Bool)
  | disconnectOp
  | launchOp (conn : ConnBehavior) (j : Job)
  | killOp (conn : ConnBehavior) (j : Job) (signal : Int)
  | updateOp (conn : ConnBehavior)
  | killExperimentOp (conn : ConnBehavior) (ename : String)

/-- The host state after one capability call. -/
def Host.apply_op (h : Host) : HostOp → Host
  | .connectOp ok2 => (h.connect ok2).2.1
  | .disconnectOp => h.disconnect.2.1
  | .launchOp conn j => (h.launch_job conn j).2.1
  | .killOp conn j s => (h.kill_job conn j s).2.1
  | .updateOp conn => (h.update conn).2.1
  | .killExperimentOp conn e => (h.kill_experiment conn e).2.1

/-- The RPC trace of one capability call. -/
def Host.op_trace (h : Host) : HostOp → List RpcCall
  | .connectOp ok2 => (h.connect ok2).2.2
  | .disconnectOp => h.disconnect.2.2
  | .launchOp conn j => (h.launch_job conn j).2.2.2
  | .killOp conn j s => (h.kill_job conn j s).2.2.2
  | .updateOp conn => (h.update conn).2.2
  | .killExperimentOp conn e => (h.kill_experiment conn e).2.2

/-! ### Worker, from `src/experiment/api/worker.py` -/

/-- The filesystem as the worker's HTTP file route observes it. -/
structure FileSystem where
  exists_file : String → Bool
  is_file : String → Bool
  content : String → String

/-- POSIX `Path.is_absolute`: the path starts with a slash. -/
def isAbsolutePath (p : String) : Bool :=
  match p.data with
  | [] => false
  | c :: _ => c == '/'

/-- Worker state relevant to the file route: the append-only allow-list
(`self._allowed_paths`).  `Path` normalisation is modelled as the identity on
path strings; no claim depends on it. -/
structure Worker where
  allowed_paths : List String
deriving DecidableEq, Repr

/-- The `/files` route body from `Worker._initialize_file_routes` (worker.py
lines 65-84): `request.args.get("path", "")` then the chain of aborts — 400
for a missing/empty or relative path, 403 for a path outside the allow-list,
404 for a missing file — and otherwise a 200 `text/plain` stream of the file.
`Except.error s` is the `abort(s)` exception. -/
def file_routes (w : Worker) (fs : FileSystem) (path_arg : Option String) :
    Except Nat (Nat × String × String) :=
  let raw := path_arg.getD ""
  if raw = "" then Except.error 400
  else if ¬ isAbsolutePath raw then Except.error 400
  else if ¬ w.allowed_paths.contains raw then Except.error 403
  else if ¬ (fs.exists_file raw && fs.is_file raw) then Except.error 404
  else Except.ok (200, "text/plain", fs.content raw)

/-- `_safe_route` from worker.py (lines 23-39) applied to the `/files` route:
the wrapper catches every `Exception` — and `werkzeug.HTTPException`, which
the `abort` calls raise, is an `Exception` — and replies `abort(500)`.  The
observable response is therefore 200 with the body on success and 500 for
every aborted request. -/
def files_endpoint (w : Worker) (fs : FileSystem) (path_arg : Option String) :
    Nat × Option (String × String) :=
  match file_routes w fs path_arg with
  | .ok (st, ct, body) => (st, some (ct, body))
  | .error _ => (500, none)

/-- `Worker.exposed_launch_job` (worker.py lines 95-146), return value only:
the try block either completes with the `Popen` pid or raises somewhere (file
opening, process start, dump writing — collapsed into the oracle), and the
`except` returns -1. -/
def Worker.exposed_launch_job (launch_attempt : Except String Int) : Int :=
  match launch_attempt with
  | .ok pid => pid
  | .error _ => -1

/-- `Worker.exposed_kill_job` (worker.py lines 148-157): pids at most 1 are
refused outright; otherwise `os.killpg` is attempted and its outcome
(`killpg_ok`) is returned. -/
def Worker.exposed_kill_job (pid : Int) (killpg_ok : Bool) : Bool :=
  if pid ≤ 1 then false
  else killpg_ok

/-! ### Scheduler, from `src/experiment/api/scheduler/scheduler.py` -/

/-- `Scheduler.JobSignal` (scheduler.py lines 51-65): enum with the lowercase
string values. -/
inductive JobSignal where
  | term
  | int
  | quit
  | kill
  | reset
deriving DecidableEq, Repr

/-- `Scheduler.JobSignal(value)` enum lookup by value; a string that is not
one of the five lowercase values raises ValueError, modelled by `none`. -/
def JobSignal.from_value : String → Option JobSignal
  | "term" => some .term
  | "int" => some .int
  | "quit" => some .quit
  | "kill" => some .kill
  | "reset" => some .reset
  | _ => none

/-- `JobSignal.signal_value` from scheduler.py. -/
def JobSignal.signal_value : JobSignal → Int
  | .term => 15
  | .int => 2
  | .quit => 3
  | .kill => 9
  | .reset => -1

/-- `Scheduler.DashboardSignal` (scheduler.py lines 82-88). -/
structure DashboardSignal where
  experiment : String
  job_id : String
  host : String
  pid : Int
  signal : String
deriving DecidableEq, Repr

/-- What one popped dashboard signal leads to inside the scheduling loop. -/
inductive SignalAction where
  | userMessage
  | rpcKill (host : String) (pid : Int) (signal_value : Int)
  | clearJob (job_id : String)
deriving DecidableEq, Repr

/-- One iteration of the signal-drain loop of `Scheduler._run_scheduler`
(scheduler.py lines 590-630), for a single popped signal.  The source
resolves the experiment with `next(..., None)`, then immediately iterates
`experiment.jobs()` to resolve the job — before the `experiment is None`
check — so an unresolved experiment raises AttributeError on `None`; likewise
`Scheduler.JobSignal(req.signal)` raises ValueError before the guard when the
signal string is not one of the five lowercase enum values.  The guard that
does run enqueues a user message; a resolved signal either calls
`host.kill_job` once or `job.clear()` for RESET (`signal_value` -1).
`Except.error` is an exception escaping the scheduler thread. -/
def process_dashboard_signal (experiments : List Experiment) (hosts : List Host)
    (req : DashboardSignal) : Except String SignalAction :=
  let experimentOpt := experiments.find? (fun e => e.name == req.experiment)
  match experimentOpt with
  | none => Except.error "AttributeError: NoneType object has no attribute jobs"
  | some ex =>
    let jobOpt := ex.jobs.find? (fun j => j.id == req.job_id)
    let hostOpt := hosts.find? (fun h => h.name == req.host)
    match JobSignal.from_value req.signal with
    | none => Except.error "ValueError: not a valid Scheduler.JobSignal"
    | some sg =>
      match jobOpt, hostOpt with
      | some job, some host =>
        if job.pid ≠ req.pid then Except.ok SignalAction.userMessage
        else if sg.signal_value ≠ -1 then
          Except.ok (SignalAction.rpcKill host.name job.pid sg.signal_value)
        else Except.ok (SignalAction.clearJob job.id)
      | _, _ => Except.ok SignalAction.userMessage

/-- The JSON body of a `POST /api/job_action` request; `none` models an
absent key. -/
structure JobActionBody where
  action : Option String
  experiment : Option String
  host : Option String
  job_id : Option String
  pid : Option Int
  signal : Option String
deriving DecidableEq, Repr

/-- The response of the `api_job_action` handler. -/
inductive JobActionResponse where
  | badRequest (msg : String)
  | serverError
  | ok (sig : DashboardSignal)
deriving DecidableEq, Repr

/-- The tail of the `api_job_action` handler after the four presence checks:
the `abort(400, "invalid signal")` branch (its condition is passed in by the
caller), then the subscripting of `data["experiment"]`, `data["job_id"]`,
`data["host"]`, `data["pid"]`, `data["signal"]` — a missing `signal` key at
that point raises KeyError, which the `errorhandler(Exception)` turns into a
500 — and the ok reply with the enqueued `DashboardSignal`. -/
def api_job_action_after_presence (d : JobActionBody) (invalid_signal : Bool) :
    JobActionResponse :=
  bif invalid_signal then JobActionResponse.badRequest "invalid signal"
  else
    match d.experiment, d.job_id, d.host, d.pid, d.signal with
    | some e, some jid, some hn, some p, some s =>
      JobActionResponse.ok ⟨e, jid, hn, p, s⟩
    | _, _, _, _, _ => JobActionResponse.serverError

/-- `api_job_action` from scheduler.py (lines 186-221): presence is checked
only for `job_id`, `pid`, `experiment`, `host` (in that order, `abort(400)`);
the signal value is checked against the uppercase set only when the body's
`action` is `"signal"`; the rest of the handler follows in
`api_job_action_after_presence`. -/
def api_job_action (d : JobActionBody) : JobActionResponse :=
  if d.job_id.isNone then JobActionResponse.badRequest "missing job_id"
  else if d.pid.isNone then JobActionResponse.badRequest "missing pid"
  else if d.experiment.isNone then JobActionResponse.badRequest "missing experiment"
  else if d.host.isNone then JobActionResponse.badRequest "missing host"
  else
    api_job_action_after_presence d
      (d.action == some "signal" &&
        !([some "TERM", some "INT", some "QUIT", some "KILL",
           some "RESET"].contains d.signal))

/-- `(api_job_action d)` is a 400 reply. -/
def JobActionResponse.isBadRequest : JobActionResponse → Bool
  | .badRequest _ => true
  | _ => false

/-- The scheduler's entity collections (scheduler.py `__init__`). -/
structure SchedState where
  hosts : List Host
  hosts_pending_removal : List Host
  experiments : List Experiment
  experiments_pending_removal : List Experiment
  experiments_drained : List Experiment
deriving DecidableEq, Repr

/-- One iteration of the `for new_experiment in new_experiments` loop of
`Scheduler._add_experiments` (scheduler.py lines 301-326): a name already
among the active, pending-removal or drained experiments is only warned
about; otherwise the experiment is appended. -/
def add_experiments_one (st : SchedState) (e : Experiment) : SchedState :=
  if (st.experiments.map Experiment.name).contains e.name then st
  else if (st.experiments_pending_removal.map Experiment.name).contains e.name then st
  else if (st.experiments_drained.map Experiment.name).contains e.name then st
  else { st with experiments := st.experiments ++ [e] }

/-- `Scheduler._add_experiments` over its list argument. -/
def add_experiments (st : SchedState) (news : List Experiment) : SchedState :=
  news.foldl add_experiments_one st

/-- One iteration of the loop of `Scheduler._add_hosts` (scheduler.py lines
328-349): duplicate names against active or pending-removal hosts are only
warned about; otherwise `connect()` runs — on Failure the host is skipped, on
Success the (now connected) host is appended.  `connect_ok` resolves the
`rpyc.connect` attempt per host name. -/
def add_hosts_one (connect_ok : String → Bool) (st : SchedState) (h : Host) : SchedState :=
  if (st.hosts.map Host.name).contains h.name then st
  else if (st.hosts_pending_removal.map Host.name).contains h.name then st
  else
    match h.connect (connect_ok h.name) with
    | (res, h2, _) => if res.ok then { st with hosts := st.hosts ++ [h2] } else st

/-- `Scheduler._add_hosts` over its list argument. -/
def add_hosts (connect_ok : String → Bool) (st : SchedState) (news : List Host) : SchedState :=
  news.foldl (add_hosts_one connect_ok) st

/-! ### The placement loop (scheduler.py lines 666-696) -/

/-- Maximum-demand element of a job list, preferring the earlier one on ties —
the head of a stable descending sort by demand, as the source computes. -/
def maxByDemand : List Job → Option Job
  | [] => none
  | j :: rest =>
    match maxByDemand rest with
    | none => some j
    | some k => if k.demand > j.demand then some k else some j

/-- Modelled from the spec: `Experiment.candidate`, called by the placement
loop, is not under src/.  Spec words: ask the experiment for its best-fitting
schedulable job with `demand ≤ capacity`, ties broken by highest demand. -/
def Experiment.candidate (e : Experiment) (cap : Int) : Option Job :=
  maxByDemand (e.jobs.filter (fun j => j.schedulable && decide (j.demand ≤ cap)))

/-- `_get_candidate` from `Scheduler._run_scheduler` (scheduler.py lines
573-586): collect each experiment's candidate, sort descending by demand
(stable) and take the head — i.e. the maximum-demand candidate, earliest
experiment first on ties. -/
def get_candidate (experiments : List Experiment) (cap : Int) : Option Job :=
  maxByDemand (experiments.filterMap (fun e => e.candidate cap))

/-- After a successful `host.launch_job(job)` the launched job object (shared
between the experiment and the host) carries its new pid, links and PENDING
status; in this value model the experiment's copy is replaced through the
job's unique id. -/
def mark_launched (exps : List Experiment) (old : Job) (launched : Job) :
    List Experiment :=
  exps.map (fun e =>
    if e.name == old.experiment then
      { e with jobs := e.jobs.map (fun x => if x.id == old.id then launched else x) }
    else e)

/-- One launch made by the placement loop, with the host's capacity as it was
observed when `_get_candidate` was asked. -/
structure LaunchEvent where
  host : String
  capacity_before : Int
  demand : Int
deriving DecidableEq, Repr

/-- The effect of `host.launch_job(job)` inside the placement loop: the
mutated host, and the experiments after the shared job object's mutation (on
Success the job has been made non-schedulable; on Failure `_launch_job`
raised before touching the job, so the experiments are unchanged). -/
def place_pass_launch (connOf : String → ConnBehavior) (h : Host) (j : Job)
    (exps : List Experiment) : Host × List Experiment :=
  ((h.launch_job (connOf h.name) j).2.1,
    if (h.launch_job (connOf h.name) j).1.ok then
      mark_launched exps j (h.launch_job (connOf h.name) j).2.2.1
    else exps)

/-- The `for host in healthy(self._hosts)` body of one `found_work` iteration
(scheduler.py lines 669-687): failed hosts are skipped; for each remaining
host a candidate is requested against the host's current capacity and, if one
exists, launched (a Failure is only logged).  Returns the rebuilt host list,
the experiments, whether any candidate was found (`found_work`) and the
launch events. -/
def place_pass (connOf : String → ConnBehavior) :
    List Host → List Experiment →
    List Host × List Experiment × Bool × List LaunchEvent
  | [], exps => ([], exps, false, [])
  | h :: rest, exps =>
    if h.failed then
      (h :: (place_pass connOf rest exps).1, (place_pass connOf rest exps).2.1,
        (place_pass connOf rest exps).2.2.1, (place_pass connOf rest exps).2.2.2)
    else
      match get_candidate exps h.capacity with
      | none =>
        (h :: (place_pass connOf rest exps).1, (place_pass connOf rest exps).2.1,
          (place_pass connOf rest exps).2.2.1, (place_pass connOf rest exps).2.2.2)
      | some j =>
        ((place_pass_launch connOf h j exps).1 ::
            (place_pass connOf rest (place_pass_launch connOf h j exps).2).1,
          (place_pass connOf rest (place_pass_launch connOf h j exps).2).2.1,
          true,
          (⟨h.name, h.capacity, j.demand⟩ : LaunchEvent) ::
            (place_pass connOf rest (place_pass_launch connOf h j exps).2).2.2.2)

/-- Stable-descending insertion by current capacity, modelling
`self._hosts.sort(key=lambda host: host.capacity(), reverse=True)`. -/
def insertByCapacity (h : Host) : List Host → List Host
  | [] => [h]
  | x :: xs => if x.capacity ≥ h.capacity then x :: insertByCapacity h xs else h :: x :: xs

/-- The in-place sort at the top of each `found_work` iteration. -/
def sortByCapacityDesc (l : List Host) : List Host := l.foldr insertByCapacity []

/-- The `while found_work` loop (scheduler.py lines 666-687): sort the hosts
by descending capacity, run one pass, and repeat while a candidate was found.
The Python loop terminates because every found candidate either stops being
schedulable (successful launch) or its host stops being healthy (Failure);
`fuel` makes that explicit, and the capacity claims below hold for every
fuel, i.e. at every loop boundary the Python code can reach. -/
def place_loop (connOf : String → ConnBehavior) :
    Nat → List Host → List Experiment → List LaunchEvent →
    List Host × List Experiment × List LaunchEvent
  | 0, hosts, exps, evs => (hosts, exps, evs)
  | fuel + 1, hosts, exps, evs =>
    if (place_pass connOf (sortByCapacityDesc hosts) exps).2.2.1 then
      place_loop connOf fuel
        (place_pass connOf (sortByCapacityDesc hosts) exps).1
        (place_pass connOf (sortByCapacityDesc hosts) exps).2.1
        (evs ++ (place_pass connOf (sortByCapacityDesc hosts) exps).2.2.2)
    else
      ((place_pass connOf (sortByCapacityDesc hosts) exps).1,
        (place_pass connOf (sortByCapacityDesc hosts) exps).2.1,
        evs ++ (place_pass connOf (sortByCapacityDesc hosts) exps).2.2.2)

/-- The capacity invariant of C1 for one host:
`Σ demand over running_jobs ≤ max_capacity`, i.e. `0 ≤ capacity()`, together
with `capacity() ≤ max_capacity`, i.e. `0 ≤ Σ`. -/
def Host.capacity_invariant (h : Host) : Prop :=
  0 ≤ h.sum_running_demand ∧ h.sum_running_demand ≤ h.max_capacity

instance (h : Host) : Decidable h.capacity_invariant := by
  unfold Host.capacity_invariant; infer_instance

/-- Spec: `demand` is a positive integer resource weight. -/
def Experiment.demands_positive (e : Experiment) : Prop :=
  ∀ j ∈ e.jobs, 1 ≤ j.demand

instance (e : Experiment) : Decidable e.demands_positive := by
  unfold Experiment.demands_positive; infer_instance

/-! ### Helper lemmas: the raw operations never touch the `failed` flag
(only the `_fail_gracefully` wrapper sets it). -/

theorem launch_job_impl_failed_eq (h : Host) (conn : ConnBehavior) (j : Job) :
    (h.launch_job_impl conn j).2.1.failed = h.failed := by
  unfold Host.launch_job_impl
  split
  · rfl
  · split
    · rfl
    · split <;> rfl

theorem kill_job_impl_failed_eq (h : Host) (conn : ConnBehavior) (j : Job) (s : Int) :
    (h.kill_job_impl conn j s).2.1.failed = h.failed := by
  unfold Host.kill_job_impl
  split
  · rfl
  · split
    · rfl
    · rfl
    · split
      · rfl
      · split
        · rfl
        · split <;> rfl

theorem update_impl_failed_eq (h : Host) (conn : ConnBehavior) :
    (h.update_impl conn).2.1.failed = h.failed := by
  unfold Host.update_impl
  split <;> rfl

theorem connect_impl_failed_eq (h : Host) (ok2 : Bool) :
    (h.connect_impl ok2).2.1.failed = h.failed := by
  unfold Host.connect_impl
  split
  · rfl
  · split <;> rfl

theorem disconnect_impl_failed_eq (h : Host) :
    h.disconnect_impl.2.1.failed = h.failed := by
  unfold Host.disconnect_impl
  split <;> rfl

theorem kill_experiment_scan_failed_eq (conn : ConnBehavior) (k : String) :
    ∀ (fuel : Nat) (h : Host) (idx : Nat),
      (kill_experiment_scan conn h k idx fuel).2.1.failed = h.failed := by
  intro fuel
  induction fuel with
  | zero => intro h idx; rfl
  | succ n ih =>
    intro h idx
    unfold kill_experiment_scan
    split
    · rfl
    · rename_i j hj
      rcases himpl : h.kill_job_impl conn j 9 with ⟨r, h2, j2, tr⟩
      have h2f : h2.failed = h.failed := by
        have hx := kill_job_impl_failed_eq h conn j 9
        rw [himpl] at hx
        exact hx
      rcases r with e | v
      · exact h2f
      · dsimp only
        rw [ih h2]
        exact h2f

theorem kill_experiment_impl_failed_eq (h : Host) (conn : ConnBehavior) (en : String) :
    (h.kill_experiment_impl conn en).2.1.failed = h.failed := by
  unfold Host.kill_experiment_impl
  rcases dictFind h.running_jobs en with _ | l
  · rfl
  · dsimp only
    rcases hscan : kill_experiment_scan conn h en 0 l.length with ⟨r, h2, tr⟩
    have h2f : h2.failed = h.failed := by
      have := kill_experiment_scan_failed_eq conn en l.length h 0
      rw [hscan] at this
      exact this
    rcases r with e | v <;> exact h2f

/-! ### C8 -/

/-- C8 counterexample: the claim's status universe and initial value do not
match the code.  `JobStatus` (work.py) has no NONE constructor at all and
admits SLEEP (so a job's status is not confined to the claim's six values),
and a newly constructed job starts at PENDING, not NONE. -/
theorem job_status_claim_counterexample :
    ((Job.mk_init "exp1" "cmd" "/out" 2 "job1" []).set_status JobStatus.sleep).status ∉
      specClaimedStatuses ∧
    (Job.mk_init "exp1" "cmd" "/out" 2 "job1" []).status = JobStatus.pending := by
  decide

/-- C8 amended: every job status is one of the nine `JobStatus` values
PENDING, RUNNING, SLEEP, WAITING, STOPPED, ZOMBIE, EXITED, KILLED, FAILED,
and a newly constructed job has status PENDING (the code defines neither a
NONE status nor a schedulable predicate over statuses). -/
theorem job_status_range_and_initial :
    (∀ e c o d i a, (Job.mk_init e c o d i a).status = JobStatus.pending) ∧
    (∀ s : JobStatus,
      s ∈ [JobStatus.pending, JobStatus.running, JobStatus.sleep, JobStatus.waiting,
           JobStatus.stopped, JobStatus.zombie, JobStatus.exited, JobStatus.killed,
           JobStatus.failed]) := by
  constructor
  · intro e c o d i a
    rfl
  · intro s
    cases s <;> simp

/-! ### C10 -/

/-- C10: when the worker's `kill_job` RPC completes normally with `false`,
`Host._kill_job` raises RuntimeError, so `_fail_gracefully` marks the whole
host failed and `kill_job` returns a Failure. -/
theorem kill_job_false_reply_marks_host_failed
    (h : Host) (conn : ConnBehavior) (j : Job) (signal : Int)
    (hc : h.connected = true)
    (hk : conn.kill_result j.pid signal = Except.ok false) :
    (h.kill_job conn j signal).1.ok = false ∧
    (h.kill_job conn j signal).2.1.failed = true := by
  unfold Host.kill_job Host.kill_job_impl
  rw [hc, hk]
  simp [RpcResult.ok]

def w10_host : Host := { Host.mk_init "h1" "localhost" 4 "9101" with connected := true }

def w10_conn : ConnBehavior :=
  ⟨Except.ok 7, fun _ _ => Except.ok false, fun _ => Except.ok "running"⟩

def w10_job : Job := Job.mk_init "e1" "cmd" "/out" 2 "jid1" []

/-- C10 witness: the theorem applied to a concrete reachable host, job and
connection whose kill RPC answers `false`. -/
theorem kill_job_false_reply_marks_host_failed_witness :
    (w10_host.kill_job w10_conn w10_job 9).1.ok = false ∧
    (w10_host.kill_job w10_conn w10_job 9).2.1.failed = true :=
  kill_job_false_reply_marks_host_failed w10_host w10_conn w10_job 9 rfl rfl

/-! ### C9 -/

/-- C9: adding an experiment whose name is already active, pending removal or
drained, and adding a host whose name is already active or pending removal,
leaves the scheduler's collections exactly as they were. -/
theorem add_duplicate_name_leaves_state_unchanged
    (st : SchedState) (e : Experiment) (h : Host) (connect_ok : String → Bool)
    (he : (st.experiments.map Experiment.name).contains e.name = true ∨
          (st.experiments_pending_removal.map Experiment.name).contains e.name = true ∨
          (st.experiments_drained.map Experiment.name).contains e.name = true)
    (hh : (st.hosts.map Host.name).contains h.name = true ∨
          (st.hosts_pending_removal.map Host.name).contains h.name = true) :
    add_experiments st [e] = st ∧ add_hosts connect_ok st [h] = st := by
  constructor
  · show add_experiments_one st e = st
    unfold add_experiments_one
    by_cases h1 : (st.experiments.map Experiment.name).contains e.name = true
    · rw [if_pos h1]
    · rw [if_neg h1]
      by_cases h2 : (st.experiments_pending_removal.map Experiment.name).contains e.name = true
      · rw [if_pos h2]
      · rw [if_neg h2]
        rcases he with h4 | h4 | h4
        · exact absurd h4 h1
        · exact absurd h4 h2
        · rw [if_pos h4]
  · show add_hosts_one connect_ok st h = st
    unfold add_hosts_one
    by_cases h1 : (st.hosts.map Host.name).contains h.name = true
    · rw [if_pos h1]
    · rw [if_neg h1]
      rcases hh with h4 | h4
      · exact absurd h4 h1
      · rw [if_pos h4]

def w9_state : SchedState :=
  { hosts := [Host.mk_init "h1" "localhost" 4 "9101"]
    hosts_pending_removal := []
    experiments := [⟨"e1", "/out", []⟩]
    experiments_pending_removal := []
    experiments_drained := [] }

/-- C9 witness: re-adding `e1` and `h1` to a state that already holds them
changes nothing. -/
theorem add_duplicate_name_leaves_state_unchanged_witness :
    add_experiments w9_state [⟨"e1", "/elsewhere", []⟩] = w9_state ∧
    add_hosts (fun _ => true) w9_state [Host.mk_init "h1" "remote" 8 "9101"] = w9_state :=
  add_duplicate_name_leaves_state_unchanged w9_state ⟨"e1", "/elsewhere", []⟩
    (Host.mk_init "h1" "remote" 8 "9101") (fun _ => true)
    (Or.inl (by decide)) (Or.inl (by decide))

/-! ### C3 -/

def w3_worker : Worker := ⟨["/out/stdout", "/out/stderr"]⟩

def w3_fs : FileSystem :=
  ⟨fun p => p == "/out/stdout", fun p => p == "/out/stdout", fun _ => "file-text"⟩

/-- C3: the worker's `/files` endpoint as deployed never returns the claimed
4xx statuses: `_safe_route` catches every `Exception` — `HTTPException`
included — so the 400 (missing path), 400 (relative path), 403 (not
allow-listed) and 404 (allow-listed but missing file) aborts all surface as
500; only the success path is a 200 `text/plain` stream, and it requires an
allow-listed path. -/
theorem files_endpoint_rejections_become_500 :
    (files_endpoint w3_worker w3_fs none).1 = 500 ∧
    (files_endpoint w3_worker w3_fs (some "relative/path")).1 = 500 ∧
    (files_endpoint w3_worker w3_fs (some "/etc/passwd")).1 = 500 ∧
    (files_endpoint w3_worker w3_fs (some "/out/stderr")).1 = 500 ∧
    files_endpoint w3_worker w3_fs (some "/out/stdout") =
      (200, some ("text/plain", "file-text")) := by
  decide

/-! ### C2 -/

instance : DecidableEq (Except String SignalAction) := fun a b =>
  match a, b with
  | .error e1, .error e2 =>
    if h : e1 = e2 then isTrue (by rw [h]) else isFalse (by intro hc; cases hc; exact h rfl)
  | .ok v1, .ok v2 =>
    if h : v1 = v2 then isTrue (by rw [h]) else isFalse (by intro hc; cases hc; exact h rfl)
  | .error _, .ok _ => isFalse (by intro hc; cases hc)
  | .ok _, .error _ => isFalse (by intro hc; cases hc)

def w2_job : Job := { Job.mk_init "e1" "cmd" "/out" 2 "j1" [] with pid := 5 }

def w2_experiments : List Experiment := [⟨"e1", "/out", [w2_job]⟩]

def w2_hosts : List Host := [{ Host.mk_init "h1" "localhost" 4 "9101" with connected := true }]

/-- C2: a popped `DashboardSignal` whose experiment name does not resolve
crashes the scheduler thread: the source iterates `experiment.jobs()` before
the `experiment is None` check, raising AttributeError.  A signal whose
experiment resolves but whose signal string is the dashboard's own validated
uppercase form raises ValueError at `Scheduler.JobSignal(req.signal)` before
the guard.  Only a fully resolved signal with a lowercase enum value reaches
`handle`, producing the single kill action. -/
theorem unresolved_experiment_signal_crashes_scheduler :
    process_dashboard_signal w2_experiments w2_hosts ⟨"missing", "j1", "h1", 5, "kill"⟩ =
      Except.error "AttributeError: NoneType object has no attribute jobs" ∧
    process_dashboard_signal w2_experiments w2_hosts ⟨"e1", "j1", "h1", 5, "TERM"⟩ =
      Except.error "ValueError: not a valid Scheduler.JobSignal" ∧
    process_dashboard_signal w2_experiments w2_hosts ⟨"e1", "j1", "h1", 5, "kill"⟩ =
      Except.ok (SignalAction.rpcKill "h1" 5 9) ∧
    process_dashboard_signal w2_experiments w2_hosts ⟨"e1", "j1", "h1", 99, "kill"⟩ =
      Except.ok SignalAction.userMessage := by
  decide

/-! ### C5 -/

def w5_host : Host := { Host.mk_init "h1" "localhost" 4 "9101" with connected := true }

def w5_conn : ConnBehavior :=
  ⟨Except.ok (Worker.exposed_launch_job (Except.error "Popen raised")),
    fun _ _ => Except.ok true, fun _ => Except.ok "running"⟩

def w5_job : Job := Job.mk_init "e1" "cmd" "/out" 2 "j1" []

/-- C5: the worker's `launch_job` returns -1 when its try-block raises, but
`Host._launch_job` performs no check on the received pid: it reports Success,
stores pid -1 on the job, sets the status to PENDING (not FAILED) and appends
the job to the host's `running_jobs`. -/
theorem launch_failure_pid_recorded_as_pending :
    Worker.exposed_launch_job (Except.error "Popen raised") = -1 ∧
    (w5_host.launch_job w5_conn w5_job).1.ok = true ∧
    (w5_host.launch_job w5_conn w5_job).2.2.1.pid = -1 ∧
    (w5_host.launch_job w5_conn w5_job).2.2.1.status = JobStatus.pending ∧
    dictFind (w5_host.launch_job w5_conn w5_job).2.1.running_jobs "e1" =
      some [(w5_host.launch_job w5_conn w5_job).2.2.1] := by
  decide

/-! ### C4 -/

def w4_j1 : Job :=
  { Job.mk_init "e1" "c1" "/o1" 2 "j1" [] with
    pid := 10, status := JobStatus.running, schedulable := false }

def w4_j2 : Job :=
  { Job.mk_init "e1" "c2" "/o2" 2 "j2" [] with
    pid := 11, status := JobStatus.running, schedulable := false }

def w4_host : Host :=
  { Host.mk_init "h1" "localhost" 4 "9101" with
    connected := true
    running_jobs := [("e1", [w4_j1, w4_j2])]
    finished_jobs := [("e1", [])] }

def w4_conn : ConnBehavior :=
  ⟨Except.ok 0, fun _ _ => Except.ok true, fun _ => Except.ok "exited"⟩

/-- C4: `Host._update` removes elements from the very list it iterates, so
when two consecutive running jobs of one experiment are both terminal
("exited" from the worker), update reports Success but moves only the first:
the second stays in `running_jobs`, its status never even polled (the RPC
trace shows a single `job_status` call, for pid 10). -/
theorem update_skips_second_terminal_job :
    (w4_host.update w4_conn).1.ok = true ∧
    (w4_host.update w4_conn).2.1.running_jobs = [("e1", [w4_j2])] ∧
    (w4_host.update w4_conn).2.1.finished_jobs =
      [("e1", [w4_j1.set_status JobStatus.exited])] ∧
    (w4_host.update w4_conn).2.2 = [RpcCall.statusRpc 10] := by
  decide

/-! ### C6 -/

theorem launch_job_failed_sticky (h : Host) (conn : ConnBehavior) (j : Job)
    (hf : h.failed = true) : (h.launch_job conn j).2.1.failed = true := by
  unfold Host.launch_job
  rcases hc : h.launch_job_impl conn j with ⟨r, h2, j2, tr⟩
  have h2f : h2.failed = h.failed := by
    have hx := launch_job_impl_failed_eq h conn j
    rw [hc] at hx
    exact hx
  rcases r with e | v
  · simp
  · dsimp only
    rw [h2f]
    exact hf

theorem kill_job_failed_sticky (h : Host) (conn : ConnBehavior) (j : Job) (s : Int)
    (hf : h.failed = true) : (h.kill_job conn j s).2.1.failed = true := by
  unfold Host.kill_job
  rcases hc : h.kill_job_impl conn j s with ⟨r, h2, j2, tr⟩
  have h2f : h2.failed = h.failed := by
    have hx := kill_job_impl_failed_eq h conn j s
    rw [hc] at hx
    exact hx
  rcases r with e | v
  · simp
  · dsimp only
    rw [h2f]
    exact hf

theorem update_failed_sticky (h : Host) (conn : ConnBehavior)
    (hf : h.failed = true) : (h.update conn).2.1.failed = true := by
  unfold Host.update
  rcases hc : h.update_impl conn with ⟨r, h2, tr⟩
  have h2f : h2.failed = h.failed := by
    have hx := update_impl_failed_eq h conn
    rw [hc] at hx
    exact hx
  rcases r with e | v
  · simp
  · dsimp only
    rw [h2f]
    exact hf

theorem connect_failed_sticky (h : Host) (ok2 : Bool)
    (hf : h.failed = true) : (h.connect ok2).2.1.failed = true := by
  unfold Host.connect
  rcases hc : h.connect_impl ok2 with ⟨r, h2, tr⟩
  have h2f : h2.failed = h.failed := by
    have hx := connect_impl_failed_eq h ok2
    rw [hc] at hx
    exact hx
  rcases r with e | v
  · simp
  · dsimp only
    rw [h2f]
    exact hf

theorem disconnect_failed_sticky (h : Host)
    (hf : h.failed = true) : h.disconnect.2.1.failed = true := by
  unfold Host.disconnect
  rcases hc : h.disconnect_impl with ⟨r, h2, tr⟩
  have h2f : h2.failed = h.failed := by
    have hx := disconnect_impl_failed_eq h
    rw [hc] at hx
    exact hx
  rcases r with e | v
  · simp
  · dsimp only
    rw [h2f]
    exact hf

theorem kill_experiment_failed_sticky (h : Host) (conn : ConnBehavior) (en : String)
    (hf : h.failed = true) : (h.kill_experiment conn en).2.1.failed = true := by
  unfold Host.kill_experiment
  rcases hc : h.kill_experiment_impl conn en with ⟨r, h2, tr⟩
  have h2f : h2.failed = h.failed := by
    have hx := kill_experiment_impl_failed_eq h conn en
    rw [hc] at hx
    exact hx
  rcases r with e | v
  · simp
  · dsimp only
    rw [h2f]
    exact hf

def w6_host_failed : Host :=
  { Host.mk_init "h1" "localhost" 4 "9101" with connected := true, failed := true }

def w6_conn : ConnBehavior :=
  ⟨Except.ok 3, fun _ _ => Except.ok true, fun _ => Except.ok "running"⟩

def w6_job : Job := { Job.mk_init "e1" "c" "/o" 1 "j1" [] with pid := 7 }

/-- C6 counterexample: a host whose `failed` flag is set does not
short-circuit — `Host.kill_job` on it still performs the kill RPC on the
connection (the trace of network calls is non-empty), because neither
`_fail_gracefully` nor any capability method consults `failed`. -/
theorem failed_host_kill_job_still_does_rpc :
    w6_host_failed.failed = true ∧
    w6_host_failed.op_trace (HostOp.killOp w6_conn w6_job 9) = [RpcCall.killRpc 7 9] := by
  decide

/-- C6 amended: the `failed` flag is sticky — no capability call (connect,
disconnect, launch_job, kill_job, update, kill_experiment) ever clears it —
and the scheduling loop's `healthy` filter yields only hosts with
`failed = false`, so the loop does not invoke capability calls on failed
hosts; but the Host methods themselves do not short-circuit, and a direct
call on a failed host still performs network I/O. -/
theorem failed_flag_sticky_and_healthy_filters :
    (∀ (h : Host) (op : HostOp), h.failed = true → (h.apply_op op).failed = true) ∧
    (∀ (hosts : List Host), ∀ h2 ∈ healthy hosts, h2.failed = false) := by
  constructor
  · intro h op hf
    cases op with
    | connectOp ok2 => exact connect_failed_sticky h ok2 hf
    | disconnectOp => exact disconnect_failed_sticky h hf
    | launchOp conn j => exact launch_job_failed_sticky h conn j hf
    | killOp conn j s => exact kill_job_failed_sticky h conn j s hf
    | updateOp conn => exact update_failed_sticky h conn hf
    | killExperimentOp conn en => exact kill_experiment_failed_sticky h conn en hf
  · intro hosts h2 hmem
    have hx := List.of_mem_filter hmem
    simpa using hx

/-- C6 witness for the amended theorem: stickiness at a concrete failed host
and one op, and the `healthy` filter of a concrete two-host list. -/
theorem failed_flag_sticky_and_healthy_filters_witness :
    (w6_host_failed.apply_op HostOp.disconnectOp).failed = true ∧
    ∀ h2 ∈ healthy [w6_host_failed, Host.mk_init "h2" "localhost" 4 "9101"],
      h2.failed = false :=
  ⟨failed_flag_sticky_and_healthy_filters.1 w6_host_failed HostOp.disconnectOp rfl,
   fun h2 hmem =>
     failed_flag_sticky_and_healthy_filters.2
       [w6_host_failed, Host.mk_init "h2" "localhost" 4 "9101"] h2 hmem⟩

/-! ### C7 -/

def w7_body_no_action : JobActionBody :=
  { action := none, experiment := some "e1", host := some "h1",
    job_id := some "j1", pid := some 5, signal := some "TERM" }

/-- C7 counterexample: a body with no `action` key at all (and hence no
signal-set validation) is not rejected with 400 — the handler enqueues the
`DashboardSignal` and replies ok. -/
theorem missing_action_is_still_enqueued :
    api_job_action w7_body_no_action =
      JobActionResponse.ok ⟨"e1", "j1", "h1", 5, "TERM"⟩ := by
  decide

/-- C7 amended: the handler 400-rejects exactly a body missing one of
`job_id`, `pid`, `experiment`, `host`, or carrying `action == "signal"` with
a signal outside TERM/INT/QUIT/KILL/RESET; the presence of `action` and
`signal` is not otherwise validated — a body passing those checks but
lacking `signal` dies in a KeyError (500), and any other body is enqueued as
a `DashboardSignal` built from its five non-action fields. -/
theorem api_job_action_validation_behaviour (d : JobActionBody) :
    ((api_job_action d).isBadRequest =
      (d.job_id.isNone || d.pid.isNone || d.experiment.isNone || d.host.isNone ||
        (d.action == some "signal" &&
          !([some "TERM", some "INT", some "QUIT", some "KILL",
             some "RESET"].contains d.signal)))) ∧
    (∀ sg : DashboardSignal, api_job_action d = JobActionResponse.ok sg →
      d.experiment = some sg.experiment ∧ d.job_id = some sg.job_id ∧
      d.host = some sg.host ∧ d.pid = some sg.pid ∧ d.signal = some sg.signal) := by
  rcases d with ⟨a, e, hn, jid, p, s⟩
  constructor
  · rcases jid with _ | jid2 <;> rcases p with _ | p2 <;>
      rcases e with _ | e2 <;> rcases hn with _ | hn2 <;> try rfl
    have hunf : api_job_action ⟨a, some e2, some hn2, some jid2, some p2, s⟩ =
        api_job_action_after_presence ⟨a, some e2, some hn2, some jid2, some p2, s⟩
          (a == some "signal" &&
            !([some "TERM", some "INT", some "QUIT", some "KILL",
               some "RESET"].contains s)) := rfl
    by_cases hb : (a == some "signal" &&
        !([some "TERM", some "INT", some "QUIT", some "KILL",
           some "RESET"].contains s)) = true
    · rw [hunf, hb]
      rfl
    · have hb2 : (a == some "signal" &&
          !([some "TERM", some "INT", some "QUIT", some "KILL",
             some "RESET"].contains s)) = false := Bool.eq_false_iff.mpr hb
      rw [hunf, hb2]
      rcases s with _ | s2 <;> rfl
  · intro sg hok
    rcases jid with _ | jid2 <;> rcases p with _ | p2 <;>
      rcases e with _ | e2 <;> rcases hn with _ | hn2 <;>
      try exact JobActionResponse.noConfusion hok
    have hunf : api_job_action ⟨a, some e2, some hn2, some jid2, some p2, s⟩ =
        api_job_action_after_presence ⟨a, some e2, some hn2, some jid2, some p2, s⟩
          (a == some "signal" &&
            !([some "TERM", some "INT", some "QUIT", some "KILL",
               some "RESET"].contains s)) := rfl
    by_cases hb : (a == some "signal" &&
        !([some "TERM", some "INT", some "QUIT", some "KILL",
           some "RESET"].contains s)) = true
    · rw [hunf, hb] at hok
      exact JobActionResponse.noConfusion hok
    · have hb2 : (a == some "signal" &&
          !([some "TERM", some "INT", some "QUIT", some "KILL",
             some "RESET"].contains s)) = false := Bool.eq_false_iff.mpr hb
      rw [hunf, hb2] at hok
      rcases s with _ | s2
      · exact JobActionResponse.noConfusion hok
      · have hok2 : JobActionResponse.ok ⟨e2, jid2, hn2, p2, s2⟩ =
            JobActionResponse.ok sg := hok
        cases hok2
        exact ⟨rfl, rfl, rfl, rfl, rfl⟩

/-- C7 witness for the amended theorem: the ok case of the characterization
at the concrete enqueued body. -/
theorem api_job_action_validation_behaviour_witness :
    w7_body_no_action.experiment = some "e1" ∧ w7_body_no_action.job_id = some "j1" ∧
    w7_body_no_action.host = some "h1" ∧ w7_body_no_action.pid = some 5 ∧
    w7_body_no_action.signal = some "TERM" :=
  (api_job_action_validation_behaviour w7_body_no_action).2
    ⟨"e1", "j1", "h1", 5, "TERM"⟩ (by decide)

/-! ### C1: the capacity invariant through the placement loop -/

theorem maxByDemand_mem : ∀ {l : List Job} {j : Job}, maxByDemand l = some j → j ∈ l := by
  intro l
  induction l with
  | nil => intro j hj; simp [maxByDemand] at hj
  | cons x rest ih =>
    intro j hj
    unfold maxByDemand at hj
    rcases hm : maxByDemand rest with _ | k
    · rw [hm] at hj
      cases hj
      exact List.mem_cons_self x rest
    · rw [hm] at hj
      dsimp only at hj
      by_cases hd : k.demand > x.demand
      · rw [if_pos hd] at hj
        cases hj
        exact List.mem_cons_of_mem x (ih hm)
      · rw [if_neg hd] at hj
        cases hj
        exact List.mem_cons_self x rest

theorem candidate_spec (e : Experiment) (cap : Int) (j : Job)
    (hc : e.candidate cap = some j) :
    j.schedulable = true ∧ j.demand ≤ cap ∧ j ∈ e.jobs := by
  unfold Experiment.candidate at hc
  have hmem := maxByDemand_mem hc
  have hf := List.mem_filter.mp hmem
  refine ⟨?_, ?_, hf.1⟩
  · have := hf.2
    simp at this
    exact this.1
  · have := hf.2
    simp at this
    exact this.2

theorem get_candidate_spec (exps : List Experiment) (cap : Int) (j : Job)
    (hg : get_candidate exps cap = some j) :
    j.demand ≤ cap ∧ j.schedulable = true ∧ ∃ e ∈ exps, j ∈ e.jobs := by
  unfold get_candidate at hg
  have hmem := maxByDemand_mem hg
  obtain ⟨e, he, hce⟩ := List.mem_filterMap.mp hmem
  obtain ⟨hs, hd, hj⟩ := candidate_spec e cap j hce
  exact ⟨hd, hs, e, he, hj⟩

theorem sumDict_cons (k : String) (v : List Job) (rest : List (String × List Job)) :
    sumDict ((k, v) :: rest) = (v.map Job.demand).sum + sumDict rest := by
  simp [sumDict]

theorem sumDict_append_singleton (d : List (String × List Job)) (k : String)
    (js : List Job) :
    sumDict (d ++ [(k, js)]) = sumDict d + (js.map Job.demand).sum := by
  simp [sumDict]

theorem sumDict_dictSet_append (d : List (String × List Job)) (k : String)
    (v : List Job) (j : Job) (hf : dictFind d k = some v) :
    sumDict (dictSet d k (v ++ [j])) = sumDict d + j.demand := by
  induction d with
  | nil => simp [dictFind] at hf
  | cons p rest ih =>
    rcases p with ⟨k2, v2⟩
    by_cases hk : (k2 == k) = true
    · rw [dictFind, if_pos hk] at hf
      cases hf
      rw [dictSet, if_pos hk, sumDict_cons, sumDict_cons]
      simp
      omega
    · rw [dictFind, if_neg hk] at hf
      rw [dictSet, if_neg hk, sumDict_cons, sumDict_cons, ih hf]
      omega

theorem launched_job_demand (h : Host) (j : Job) (p : Int) :
    (launched_job h j p).demand = j.demand := rfl

theorem launch_job_impl_sum (h : Host) (conn : ConnBehavior) (j : Job) :
    (h.launch_job_impl conn j).2.1.max_capacity = h.max_capacity ∧
    ((h.launch_job_impl conn j).2.1.sum_running_demand =
        h.sum_running_demand + j.demand ∨
      (h.launch_job_impl conn j).2.1.sum_running_demand = h.sum_running_demand) := by
  unfold Host.launch_job_impl
  split
  · exact ⟨rfl, Or.inr rfl⟩
  · rcases hr : conn.launch_result with e | pv
    · exact ⟨rfl, Or.inr rfl⟩
    · rcases hf : dictFind h.running_jobs j.experiment with _ | cur
      · refine ⟨rfl, Or.inl ?_⟩
        show sumDict (h.running_jobs ++ [(j.experiment, [launched_job h j pv])]) =
          sumDict h.running_jobs + j.demand
        rw [sumDict_append_singleton]
        simp [launched_job_demand]
      · refine ⟨rfl, Or.inl ?_⟩
        show sumDict (dictSet h.running_jobs j.experiment
            (cur ++ [launched_job h j pv])) = sumDict h.running_jobs + j.demand
        rw [sumDict_dictSet_append _ _ _ _ hf, launched_job_demand]

theorem launch_job_sum (h : Host) (conn : ConnBehavior) (j : Job) :
    (h.launch_job conn j).2.1.max_capacity = h.max_capacity ∧
    ((h.launch_job conn j).2.1.sum_running_demand =
        h.sum_running_demand + j.demand ∨
      (h.launch_job conn j).2.1.sum_running_demand = h.sum_running_demand) := by
  have himpl := launch_job_impl_sum h conn j
  unfold Host.launch_job
  rcases hc : h.launch_job_impl conn j with ⟨r, h2, j2, tr⟩
  rw [hc] at himpl
  rcases r with e | v
  · exact himpl
  · exact himpl

theorem launch_job_impl_demand (h : Host) (conn : ConnBehavior) (j : Job) :
    (h.launch_job_impl conn j).2.2.1.demand = j.demand := by
  unfold Host.launch_job_impl
  split
  · rfl
  · split
    · rfl
    · split <;> rfl

theorem launch_job_demand_eq (h : Host) (conn : ConnBehavior) (j : Job) :
    (h.launch_job conn j).2.2.1.demand = j.demand := by
  have himpl := launch_job_impl_demand h conn j
  unfold Host.launch_job
  rcases hc : h.launch_job_impl conn j with ⟨r, h2, j2, tr⟩
  rw [hc] at himpl
  rcases r with e | v
  · exact himpl
  · exact himpl

/-- A successful or failed launch of a job whose demand fits the host's
current capacity preserves the capacity invariant. -/
theorem launch_preserves_invariant (h : Host) (conn : ConnBehavior) (j : Job)
    (hinv : h.capacity_invariant) (hd : 1 ≤ j.demand)
    (hcap : j.demand ≤ h.capacity) :
    (h.launch_job conn j).2.1.capacity_invariant := by
  obtain ⟨hmax, hsum⟩ := launch_job_sum h conn j
  obtain ⟨h0, h1⟩ := hinv
  unfold Host.capacity at hcap
  unfold Host.capacity_invariant
  rw [hmax]
  rcases hsum with hs | hs <;> rw [hs] <;> constructor <;> omega

theorem mark_launched_demands_positive (exps : List Experiment) (j j2 : Job)
    (hd : 1 ≤ j2.demand) (hall : ∀ e ∈ exps, e.demands_positive) :
    ∀ e ∈ mark_launched exps j j2, e.demands_positive := by
  intro e he
  obtain ⟨e0, he0, hmap⟩ := List.mem_map.mp he
  intro x hx
  by_cases hn : (e0.name == j.experiment) = true
  · rw [if_pos hn] at hmap
    subst hmap
    dsimp only at hx
    obtain ⟨x0, hx0, hxe⟩ := List.mem_map.mp hx
    by_cases hid : (x0.id == j.id) = true
    · rw [if_pos hid] at hxe
      subst hxe
      exact hd
    · rw [if_neg hid] at hxe
      subst hxe
      exact hall e0 he0 x0 hx0
  · rw [if_neg hn] at hmap
    subst hmap
    exact hall e0 he0 x hx

theorem insertByCapacity_mem {x : Host} :
    ∀ {l : List Host} {h2 : Host}, h2 ∈ insertByCapacity x l → h2 = x ∨ h2 ∈ l := by
  intro l
  induction l with
  | nil =>
    intro h2 hm
    simp [insertByCapacity] at hm
    exact Or.inl hm
  | cons y ys ih =>
    intro h2 hm
    unfold insertByCapacity at hm
    by_cases hc : y.capacity ≥ x.capacity
    · rw [if_pos hc] at hm
      rcases List.mem_cons.mp hm with hy | hrest
      · exact Or.inr (hy ▸ List.mem_cons_self y ys)
      · rcases ih hrest with h1 | h1
        · exact Or.inl h1
        · exact Or.inr (List.mem_cons_of_mem y h1)
    · rw [if_neg hc] at hm
      rcases List.mem_cons.mp hm with hy | hrest
      · exact Or.inl hy
      · exact Or.inr hrest

theorem sortByCapacityDesc_subset :
    ∀ {l : List Host} {h2 : Host}, h2 ∈ sortByCapacityDesc l → h2 ∈ l := by
  intro l
  induction l with
  | nil =>
    intro h2 hm
    simp [sortByCapacityDesc] at hm
  | cons x xs ih =>
    intro h2 hm
    have hm2 : h2 ∈ insertByCapacity x (sortByCapacityDesc xs) := hm
    rcases insertByCapacity_mem hm2 with h1 | h1
    · exact h1 ▸ List.mem_cons_self x xs
    · exact List.mem_cons_of_mem x (ih h1)

/-- One pass of the placement loop keeps every host inside the capacity
invariant, keeps every experiment's demands positive, and only records launch
events whose demand fits the capacity observed at launch time. -/
theorem place_pass_spec (connOf : String → ConnBehavior) :
    ∀ (hosts : List Host) (exps : List Experiment),
      (∀ h ∈ hosts, h.capacity_invariant) →
      (∀ e ∈ exps, e.demands_positive) →
      (∀ h ∈ (place_pass connOf hosts exps).1, h.capacity_invariant) ∧
      (∀ e ∈ (place_pass connOf hosts exps).2.1, e.demands_positive) ∧
      (∀ ev ∈ (place_pass connOf hosts exps).2.2.2, ev.demand ≤ ev.capacity_before) := by
  intro hosts
  induction hosts with
  | nil =>
    intro exps hh he
    refine ⟨?_, ?_, ?_⟩
    · intro x hx
      simp [place_pass] at hx
    · intro e hect
      exact he e hect
    · intro ev hev
      simp [place_pass] at hev
  | cons h rest ih =>
    intro exps hh he
    have hinv_h : h.capacity_invariant := hh h (List.mem_cons_self h rest)
    have hh_rest : ∀ x ∈ rest, x.capacity_invariant :=
      fun x hx => hh x (List.mem_cons_of_mem h hx)
    unfold place_pass
    split
    · obtain ⟨ih1, ih2, ih3⟩ := ih exps hh_rest he
      refine ⟨?_, ih2, ih3⟩
      intro x hx
      rcases List.mem_cons.mp hx with hx1 | hx2
      · exact hx1 ▸ hinv_h
      · exact ih1 x hx2
    · rcases hg : get_candidate exps h.capacity with _ | j
      · obtain ⟨ih1, ih2, ih3⟩ := ih exps hh_rest he
        refine ⟨?_, ih2, ih3⟩
        intro x hx
        rcases List.mem_cons.mp hx with hx1 | hx2
        · exact hx1 ▸ hinv_h
        · exact ih1 x hx2
      · obtain ⟨hdcap, hsched, e0, he0, hj0⟩ := get_candidate_spec exps h.capacity j hg
        have hdpos : 1 ≤ j.demand := he e0 he0 j hj0
        have hinv2 : (place_pass_launch connOf h j exps).1.capacity_invariant :=
          launch_preserves_invariant h (connOf h.name) j hinv_h hdpos hdcap
        have hexps2 : ∀ e ∈ (place_pass_launch connOf h j exps).2,
            e.demands_positive := by
          unfold place_pass_launch
          by_cases hok : (h.launch_job (connOf h.name) j).1.ok = true
          · rw [if_pos hok]
            refine mark_launched_demands_positive exps j _ ?_ he
            rw [launch_job_demand_eq h (connOf h.name) j]
            exact hdpos
          · rw [if_neg hok]
            exact he
        obtain ⟨ih1, ih2, ih3⟩ :=
          ih (place_pass_launch connOf h j exps).2 hh_rest hexps2
        refine ⟨?_, ih2, ?_⟩
        · intro x hx
          rcases List.mem_cons.mp hx with hx1 | hx2
          · exact hx1 ▸ hinv2
          · exact ih1 x hx2
        · intro ev hev
          rcases List.mem_cons.mp hev with hev1 | hev2
          · subst hev1
            exact hdcap
          · exact ih3 ev hev2

/-- The full `while found_work` loop preserves the capacity invariant and
only launches within observed capacity, for every iteration bound. -/
theorem place_loop_spec (connOf : String → ConnBehavior) :
    ∀ (fuel : Nat) (hosts : List Host) (exps : List Experiment) (evs : List LaunchEvent),
      (∀ h ∈ hosts, h.capacity_invariant) →
      (∀ e ∈ exps, e.demands_positive) →
      (∀ ev ∈ evs, ev.demand ≤ ev.capacity_before) →
      (∀ h ∈ (place_loop connOf fuel hosts exps evs).1, h.capacity_invariant) ∧
      (∀ ev ∈ (place_loop connOf fuel hosts exps evs).2.2,
        ev.demand ≤ ev.capacity_before) := by
  intro fuel
  induction fuel with
  | zero =>
    intro hosts exps evs hh _ hevs
    exact ⟨hh, hevs⟩
  | succ n ih =>
    intro hosts exps evs hh he hevs
    have hh_sorted : ∀ h ∈ sortByCapacityDesc hosts, h.capacity_invariant :=
      fun x hx => hh x (sortByCapacityDesc_subset hx)
    obtain ⟨hp1, hp2, hp3⟩ := place_pass_spec connOf (sortByCapacityDesc hosts) exps hh_sorted he
    have hevs2 : ∀ ev ∈ evs ++ (place_pass connOf (sortByCapacityDesc hosts) exps).2.2.2,
        ev.demand ≤ ev.capacity_before := by
      intro ev hev
      rcases List.mem_append.mp hev with h1 | h1
      · exact hevs ev h1
      · exact hp3 ev h1
    unfold place_loop
    split
    · exact ih _ _ _ hp1 hp2 hevs2
    · exact ⟨hp1, hevs2⟩

/-- C1: starting from hosts satisfying the capacity invariant and experiments
with positive demands, after any number of placement-loop iterations every
host still satisfies `0 ≤ Σ demand(running_jobs) ≤ max_capacity` (i.e.
`0 ≤ capacity() ≤ max_capacity`), and every launch performed by the loop was
of a job whose demand was at most the host's capacity observed when the
candidate was requested. -/
theorem placement_maintains_capacity_invariant
    (connOf : String → ConnBehavior) (fuel : Nat)
    (hosts : List Host) (exps : List Experiment)
    (hh : ∀ h ∈ hosts, h.capacity_invariant)
    (he : ∀ e ∈ exps, e.demands_positive) :
    (∀ h ∈ (place_loop connOf fuel hosts exps []).1,
      0 ≤ h.capacity ∧ h.capacity ≤ h.max_capacity) ∧
    (∀ ev ∈ (place_loop connOf fuel hosts exps []).2.2,
      ev.demand ≤ ev.capacity_before) := by
  obtain ⟨h1, h2⟩ := place_loop_spec connOf fuel hosts exps [] hh he (by intro ev hev; cases hev)
  refine ⟨?_, h2⟩
  intro h hm
  obtain ⟨ha, hb⟩ := h1 h hm
  unfold Host.capacity
  omega

def w1_conn : ConnBehavior :=
  ⟨Except.ok 100, fun _ _ => Except.ok true, fun _ => Except.ok "running"⟩

def w1_hosts : List Host :=
  [{ Host.mk_init "h1" "localhost" 4 "9101" with connected := true },
   { Host.mk_init "h2" "localhost" 3 "9101" with connected := true }]

def w1_exps : List Experiment :=
  [⟨"e1", "/out",
    [Job.mk_init "e1" "c1" "/o1" 3 "j1" [],
     Job.mk_init "e1" "c2" "/o2" 2 "j2" [],
     Job.mk_init "e1" "c3" "/o3" 2 "j3" []]⟩]

/-- C1 witness: the invariant theorem applied to the spec's bin-packing
scenario (hosts of capacity 4 and 3, jobs of demand 3, 2, 2). -/
theorem placement_maintains_capacity_invariant_witness :
    (∀ h ∈ (place_loop (fun _ => w1_conn) 4 w1_hosts w1_exps []).1,
      0 ≤ h.capacity ∧ h.capacity ≤ h.max_capacity) ∧
    (∀ ev ∈ (place_loop (fun _ => w1_conn) 4 w1_hosts w1_exps []).2.2,
      ev.demand ≤ ev.capacity_before) :=
  placement_maintains_capacity_invariant (fun _ => w1_conn) 4 w1_hosts w1_exps
    (by decide) (by decide)

end ExperimentSpec
